import Mathlib

/-!
Verification development for the Azure cost-report script (src/cost-report.py).

The script is embedded shallowly: pure date arithmetic becomes Lean functions on a
record of calendar fields; the external billing and email services are modelled as
oracles (explicit outcome values) threaded through the control flow, which is
translated statement by statement.  Python floats used for money are modelled as
rationals for arithmetic, and as finite decimals (the form str of a float takes)
at the file-serialization layer.
-/

namespace CostReport

/-- Calendar timestamp with second resolution, mirroring the fields of a Python
datetime that the script actually uses (microseconds are zeroed by the script
before any formatting, so they are omitted). `year` is an integer, the other
fields naturals with the usual calendar conventions (month 1..12, day 1..31). -/
structure DateTime where
  year : Int
  month : Nat
  day : Nat
  hour : Nat
  minute : Nat
  second : Nat
  deriving DecidableEq, Repr

/-- Gregorian leap-year rule, as dateutil and the Python calendar use. -/
def isLeap (y : Int) : Bool :=
  y % 4 == 0 && (y % 100 != 0 || y % 400 == 0)

/-- Number of days in a month (month out of range defaults to 31; the script
only ever evaluates it on months 1..12). -/
def daysInMonth (y : Int) (m : Nat) : Nat :=
  if m = 2 then (if isLeap y then 29 else 28)
  else if m = 4 ∨ m = 6 ∨ m = 9 ∨ m = 11 then 30
  else 31

/-- English month name, as strftime %B produces. -/
def monthName (m : Nat) : String :=
  if m = 1 then "January" else if m = 2 then "February" else if m = 3 then "March"
  else if m = 4 then "April" else if m = 5 then "May" else if m = 6 then "June"
  else if m = 7 then "July" else if m = 8 then "August" else if m = 9 then "September"
  else if m = 10 then "October" else if m = 11 then "November" else "December"

/-- Two-digit zero padding, as strftime %m %d %H %M %S produce. -/
def pad2 (n : Nat) : String := if n < 10 then "0" ++ toString n else toString n

/-- Year formatting (years of interest are four digits, where %Y prints them plainly). -/
def yearStr (y : Int) : String := toString y

/-- strftime format %Y-%m-%dT%H:%M:%SZ used for the query date range strings. -/
def fmtTimestamp (d : DateTime) : String :=
  yearStr d.year ++ "-" ++ pad2 d.month ++ "-" ++ pad2 d.day ++ "T"
    ++ pad2 d.hour ++ ":" ++ pad2 d.minute ++ ":" ++ pad2 d.second ++ "Z"

/-- strftime format %Y%m%d_%H%M%S embedded in the report filename. -/
def fmtFileStamp (d : DateTime) : String :=
  yearStr d.year ++ pad2 d.month ++ pad2 d.day ++ "_"
    ++ pad2 d.hour ++ pad2 d.minute ++ pad2 d.second

/-- `d - relativedelta(months := i)` (also used with negative `i` for addition):
shift the month index by `i`, clamping the day to the target month's length,
keeping the time fields.  dateutil normalizes via floor division on the total
month count, which Int ediv/emod give for the positive modulus 12. -/
def subMonthsClamped (d : DateTime) (i : Int) : DateTime :=
  let idx : Int := d.year * 12 + ((d.month : Int) - 1) - i
  let y := idx / 12
  let m := (idx % 12).toNat + 1
  { year := y, month := m, day := min d.day (daysInMonth y m),
    hour := d.hour, minute := d.minute, second := d.second }

/-- `.replace(day := 1, hour := 0, minute := 0, second := 0, microsecond := 0)`
applied to the shifted date, as in get_last_three_full_months. -/
def firstOfShiftedMonth (today : DateTime) (i : Int) : DateTime :=
  let d := subMonthsClamped today i
  { d with day := 1, hour := 0, minute := 0, second := 0 }

/-- `d - timedelta(seconds := 1)`: borrow through the time fields and, from the
first instant of a month, into the last second of the previous month. -/
def subOneSecond (d : DateTime) : DateTime :=
  if d.second > 0 then { d with second := d.second - 1 }
  else if d.minute > 0 then { d with minute := d.minute - 1, second := 59 }
  else if d.hour > 0 then { d with hour := d.hour - 1, minute := 59, second := 59 }
  else if d.day > 1 then { d with day := d.day - 1, hour := 23, minute := 59, second := 59 }
  else
    let y := if d.month = 1 then d.year - 1 else d.year
    let m := if d.month = 1 then 12 else d.month - 1
    { year := y, month := m, day := daysInMonth y m, hour := 23, minute := 59, second := 59 }

/-- One reporting period as the script builds it: the dict with keys
name / start / end ("end" is a Lean keyword, so the field is `stop`). -/
structure Period where
  name : String
  start : String
  stop : String
  deriving DecidableEq, Repr

/-- Body of the loop in get_last_three_full_months for one value of `i`. -/
def builtPeriod (today : DateTime) (i : Int) : Period :=
  let som := firstOfShiftedMonth today i
  let eom := subOneSecond (subMonthsClamped som (-1))
  { name := monthName som.month ++ " " ++ yearStr som.year,
    start := fmtTimestamp som,
    stop := fmtTimestamp eom }

/-- get_last_three_full_months: iterate i over range(3, 0, -1). -/
def get_last_three_full_months (today : DateTime) : List Period :=
  [3, 2, 1].map (fun i => builtPeriod today i)

/-- The calendar month immediately preceding a given (year, month). -/
def prevYM (ym : Int × Nat) : Int × Nat :=
  if ym.2 = 1 then (ym.1 - 1, 12) else (ym.1, ym.2 - 1)

/-- The calendar month `k` months before a given (year, month), by repeatedly
stepping to the immediately preceding month. -/
def monthsBack (ym : Int × Nat) : Nat → Int × Nat
  | 0 => ym
  | k + 1 => prevYM (monthsBack ym k)

/-- The reporting period the specification prescribes for a calendar month:
label "MonthName Year", start at the first instant (midnight) of day 1, end at
23:59:59 on the last day of that month. -/
def expectedPeriod (ym : Int × Nat) : Period :=
  { name := monthName ym.2 ++ " " ++ yearStr ym.1,
    start := fmtTimestamp ⟨ym.1, ym.2, 1, 0, 0, 0⟩,
    stop := fmtTimestamp ⟨ym.1, ym.2, daysInMonth ym.1 ym.2, 23, 59, 59⟩ }

theorem one_le_daysInMonth (y : Int) (m : Nat) : 1 ≤ daysInMonth y m := by
  unfold daysInMonth
  split_ifs <;> omega

/-- Absolute month index: year * 12 + (month - 1). -/
def monthIdx (y : Int) (m : Nat) : Int := y * 12 + ((m : Int) - 1)

theorem prevYM_idx (d : Int) :
    prevYM (d / 12, (d % 12).toNat + 1) = ((d - 1) / 12, ((d - 1) % 12).toNat + 1) := by
  unfold prevYM
  by_cases h : (d % 12).toNat + 1 = 1
  · rw [if_pos h]
    simp only [Prod.mk.injEq]
    constructor <;> omega
  · rw [if_neg h]
    simp only [Prod.mk.injEq]
    constructor <;> omega

theorem monthsBack_idx (y : Int) (m : Nat) (h1 : 1 ≤ m) (h2 : m ≤ 12) (i : Nat) :
    monthsBack (y, m) i
      = ((monthIdx y m - i) / 12, ((monthIdx y m - i) % 12).toNat + 1) := by
  induction i with
  | zero =>
    unfold monthsBack monthIdx
    simp only [Prod.mk.injEq]
    constructor <;> omega
  | succ k ih =>
    show prevYM (monthsBack (y, m) k) = _
    rw [ih, prevYM_idx]
    simp only [Prod.mk.injEq]
    constructor <;> omega

theorem addOneMonth_first (D : Int) :
    subMonthsClamped ⟨D / 12, (D % 12).toNat + 1, 1, 0, 0, 0⟩ (-1)
      = ⟨(D + 1) / 12, ((D + 1) % 12).toNat + 1, 1, 0, 0, 0⟩ := by
  unfold subMonthsClamped
  simp only [DateTime.mk.injEq]
  repeat' apply And.intro
  all_goals first
    | trivial
    | omega
    | exact Nat.min_eq_left (one_le_daysInMonth _ _)

theorem subOneSecond_first (y : Int) (m : Nat) :
    subOneSecond ⟨y, m, 1, 0, 0, 0⟩
      = ⟨(prevYM (y, m)).1, (prevYM (y, m)).2,
          daysInMonth (prevYM (y, m)).1 (prevYM (y, m)).2, 23, 59, 59⟩ := by
  unfold subOneSecond prevYM
  norm_num
  by_cases hm : m = 1 <;> simp [hm]

theorem builtPeriod_eq (today : DateTime)
    (h1 : 1 ≤ today.month) (h2 : today.month ≤ 12) (i : Nat) :
    builtPeriod today (i : Int)
      = expectedPeriod (monthsBack (today.year, today.month) i) := by
  rw [monthsBack_idx _ _ h1 h2]
  have hsom : firstOfShiftedMonth today (i : Int)
      = ⟨(monthIdx today.year today.month - i) / 12,
          ((monthIdx today.year today.month - i) % 12).toNat + 1, 1, 0, 0, 0⟩ := rfl
  have hD : monthIdx today.year today.month - i + 1 - 1
      = monthIdx today.year today.month - i := by omega
  simp only [builtPeriod]
  rw [hsom, addOneMonth_first, subOneSecond_first, prevYM_idx, hD]
  rfl

/-- The three oldest-to-newest month labels and date strings expected for a
given current (year, month), per the specification contract. -/
def expectedThree (y : Int) (m : Nat) : List Period :=
  [expectedPeriod (monthsBack (y, m) 3),
   expectedPeriod (monthsBack (y, m) 2),
   expectedPeriod (monthsBack (y, m) 1)]

/-- C2: for every current instant (with a valid calendar month), the period
calculator returns exactly three periods, ordered oldest-to-newest, one for
each of the three calendar months immediately preceding the current month
(`monthsBack` steps month by month with year rollover), each with its start at
midnight on the first day of its month and its end at 23:59:59 on the last day
of its month (`expectedPeriod`); a January run instant therefore yields
October, November, December of the previous year, in that order. -/
theorem get_last_three_full_months_spec (today : DateTime)
    (h1 : 1 ≤ today.month) (h2 : today.month ≤ 12) :
    get_last_three_full_months today = expectedThree today.year today.month := by
  have e3 := builtPeriod_eq today h1 h2 3
  have e2 := builtPeriod_eq today h1 h2 2
  have e1 := builtPeriod_eq today h1 h2 1
  norm_num at e3 e2 e1
  simp only [get_last_three_full_months, List.map, expectedThree, e3, e2, e1]

/-- Witness for C2: a run instant in January 2025 yields the periods for
October, November and December 2024, oldest to newest, with the concrete
boundary strings showing midnight starts and 23:59:59 ends. -/
theorem get_last_three_full_months_spec_witness :
    get_last_three_full_months ⟨2025, 1, 16, 9, 30, 0⟩
        = expectedThree 2025 1
      ∧ expectedThree 2025 1 =
        [{ name := "October 2024", start := "2024-10-01T00:00:00Z",
           stop := "2024-10-31T23:59:59Z" },
         { name := "November 2024", start := "2024-11-01T00:00:00Z",
           stop := "2024-11-30T23:59:59Z" },
         { name := "December 2024", start := "2024-12-01T00:00:00Z",
           stop := "2024-12-31T23:59:59Z" }] :=
  ⟨get_last_three_full_months_spec ⟨2025, 1, 16, 9, 30, 0⟩ (by decide) (by decide),
   by decide⟩

/-! ## Cost query helper (get_subscription_costs) -/

/-- Outcome of the billing cost query `cost_client.query.usage` for one
subscription and date range, as observed by get_subscription_costs:
either the call raises, or it returns an object whose `rows` attribute is
absent/None or a list of rows, each row a list of cells; a cell is `some q`
when `float(cell)` succeeds with value `q` and `none` when that conversion
raises (a malformed cell). -/
inductive QueryOutcome where
  | raises
  | result (rows : Option (List (List (Option ℚ))))
  deriving DecidableEq

/-- get_subscription_costs: the whole body sits in one try/except.  If the
query raises, or the first cell of the first row is missing or malformed (so
that indexing or float() raises inside the try), the except branch returns
0.0; if `rows` is falsy (None or empty), the empty-result branch returns 0.0;
otherwise the first cell of the first row is returned. -/
def get_subscription_costs (o : QueryOutcome) : ℚ :=
  match o with
  | .raises => 0
  | .result none => 0
  | .result (some rows) =>
    match rows with
    | [] => 0
    | row :: _ =>
      match row with
      | [] => 0
      | cell :: _ =>
        match cell with
        | none => 0
        | some q => q

/-- C10: the cost-query helper is total: every outcome of the underlying
billing call yields a numeric return value (no exception escapes, by the
return type of the embedding), a raised exception returns 0, and the value
returned for a raised exception is indistinguishable from the value returned
for a genuine zero-cost result; malformed shapes (missing rows attribute,
empty first row, unconvertible first cell) also return 0. -/
theorem get_subscription_costs_total :
    (∀ o : QueryOutcome, ∃ q : ℚ, get_subscription_costs o = q)
      ∧ get_subscription_costs .raises = 0
      ∧ get_subscription_costs .raises
          = get_subscription_costs (.result (some [[some 0]]))
      ∧ get_subscription_costs (.result none) = 0
      ∧ get_subscription_costs (.result (some [])) = 0
      ∧ get_subscription_costs (.result (some [[]])) = 0
      ∧ get_subscription_costs (.result (some [[none]])) = 0 :=
  ⟨fun o => ⟨get_subscription_costs o, rfl⟩, rfl, by decide, rfl, rfl, rfl, rfl⟩

/-! ## Aggregation loop of generate_cost_report -/

/-- A cost cell of a report row: a numeric amount, or the sentinel string
"N/A" that the except branch in the per-month loop would store. -/
inductive Cell where
  | num (q : ℚ)
  | na
  deriving DecidableEq

/-- Outcome of `subscription_client.subscriptions.get` for one identifier:
a display name, or any exception (network, not-found, auth). -/
inductive LookupOutcome where
  | ok (displayName : String)
  | fails
  deriving DecidableEq

/-- The external-service behaviour relevant to one subscription identifier:
its display-name lookup outcome and, for each period index, the outcome of
the cost query for that period. -/
structure SubEnv where
  id : String
  lookup : LookupOutcome
  query : Nat → QueryOutcome

/-- One report row: Subscription ID, Subscription Name, and the per-period
cost cells in period order (the Python dict keyed by the distinct month names,
in insertion order). -/
structure ReportRow where
  id : String
  name : String
  cells : List Cell
  deriving DecidableEq

/-- The summary_data update for one period:
`if name not in summary_data: summary_data[name] = 0; summary_data[name] += cost`
on the insertion-ordered association list. -/
def summaryAdd : List (String × ℚ) → String → ℚ → List (String × ℚ)
  | [], k, v => [(k, v)]
  | (k0, v0) :: t, k, v =>
    if k0 = k then (k0, v0 + v) :: t else (k0, v0) :: summaryAdd t k v

/-- Value stored in summary_data for a period name, taking a missing entry
as 0 (a period that received no contribution). -/
def summaryValue : List (String × ℚ) → String → ℚ
  | [], _ => 0
  | (k0, v0) :: t, k => if k0 = k then v0 else summaryValue t k

/-- The inner `for month in months` loop for one subscription that resolved
its display name: fetch the cost through get_subscription_costs (which is
total, so the except branch that would store the sentinel is unreachable),
record it in the row, and add it to summary_data.  `k` is the index of the
first period in `ms` within the full period list. -/
def processMonths (env : SubEnv) : List Period → Nat → List (String × ℚ) →
    List Cell × List (String × ℚ)
  | [], _, s => ([], s)
  | mo :: rest, k, s =>
    let cost := get_subscription_costs (env.query k)
    let s1 := summaryAdd s mo.name cost
    let r := processMonths env rest (k + 1) s1
    (Cell.num cost :: r.1, r.2)

/-- The body of the outer `for sub_id in target_subscription_ids` loop:
on lookup failure, `continue` — no row is appended and summary_data is
untouched; otherwise process all periods and build the row. -/
def processSub (months : List Period) (env : SubEnv) (s : List (String × ℚ)) :
    Option ReportRow × List (String × ℚ) :=
  match env.lookup with
  | .fails => (none, s)
  | .ok nm =>
    let r := processMonths env months 0 s
    (some { id := env.id, name := nm, cells := r.1 }, r.2)

/-- The outer loop over all configured subscription identifiers, producing
report_data (rows in input order) and summary_data. -/
def generate_rows (months : List Period) :
    List SubEnv → List (String × ℚ) → List ReportRow × List (String × ℚ)
  | [], s => ([], s)
  | env :: rest, s =>
    let p := processSub months env s
    match p.1 with
    | none => generate_rows months rest p.2
    | some row =>
      let r := generate_rows months rest p.2
      (row :: r.1, r.2)

theorem summaryValue_add_self (s : List (String × ℚ)) (k : String) (v : ℚ) :
    summaryValue (summaryAdd s k v) k = summaryValue s k + v := by
  induction s with
  | nil => simp [summaryAdd, summaryValue]
  | cons h t ih =>
    obtain ⟨k0, v0⟩ := h
    by_cases hk : k0 = k
    · simp [summaryAdd, summaryValue, hk]
    · simp [summaryAdd, summaryValue, hk, ih]

theorem summaryValue_add_other (s : List (String × ℚ)) (k k0 : String) (v : ℚ)
    (h : k ≠ k0) :
    summaryValue (summaryAdd s k v) k0 = summaryValue s k0 := by
  induction s with
  | nil => simp [summaryAdd, summaryValue, h]
  | cons hd t ih =>
    obtain ⟨k1, v1⟩ := hd
    by_cases hk : k1 = k
    · subst hk
      simp [summaryAdd, summaryValue, h]
    · simp [summaryAdd, summaryValue, hk, ih]

theorem processMonths_cells (env : SubEnv) :
    ∀ (ms : List Period) (k : Nat) (s : List (String × ℚ)),
      (processMonths env ms k s).1.length = ms.length
      ∧ ∀ (j : Nat) (mo : Period), ms[j]? = some mo →
          (processMonths env ms k s).1[j]?
            = some (Cell.num (get_subscription_costs (env.query (k + j)))) := by
  intro ms
  induction ms with
  | nil => intro k s; simp [processMonths]
  | cons mo rest ih =>
    intro k s
    simp only [processMonths]
    refine ⟨by simp [(ih (k + 1) (summaryAdd s mo.name _)).1], ?_⟩
    intro j mo1 hj
    match j with
    | 0 => simp
    | j + 1 =>
      simp only [List.getElem?_cons_succ] at hj ⊢
      have h2 := (ih (k + 1) (summaryAdd s mo.name
        (get_subscription_costs (env.query k)))).2 j mo1 hj
      have harith : k + 1 + j = k + (j + 1) := by omega
      rw [← harith]
      exact h2

theorem processMonths_summary_zero (env : SubEnv) (nm : String) :
    ∀ (ms : List Period) (k : Nat) (s : List (String × ℚ)),
      (∀ (j : Nat) (mo : Period), ms[j]? = some mo → mo.name = nm →
        get_subscription_costs (env.query (k + j)) = 0) →
      summaryValue (processMonths env ms k s).2 nm = summaryValue s nm := by
  intro ms
  induction ms with
  | nil => intro k s _; simp [processMonths]
  | cons mo rest ih =>
    intro k s h
    simp only [processMonths]
    have hrest : ∀ (j : Nat) (mo1 : Period), rest[j]? = some mo1 → mo1.name = nm →
        get_subscription_costs (env.query (k + 1 + j)) = 0 := by
      intro j mo1 hj hn
      have := h (j + 1) mo1 (by simpa using hj) hn
      have harith : k + 1 + j = k + (j + 1) := by omega
      rw [harith]
      exact this
    rw [ih (k + 1) _ hrest]
    by_cases hn : mo.name = nm
    · have hz := h 0 mo (by simp) hn
      simp only [Nat.add_zero] at hz
      rw [hn, hz, summaryValue_add_self]
      ring
    · exact summaryValue_add_other _ _ _ _ hn

/-- Numeric value of a cell (only applied to non-sentinel cells in the
statements below). -/
def cellValue : Cell → ℚ
  | .num q => q
  | .na => 0

/-- Sum of the numeric (non-sentinel) cost values recorded in one row for the
period called `nm`, pairing the row's cells with the periods positionally. -/
def rowPeriodSum (months : List Period) (row : ReportRow) (nm : String) : ℚ :=
  (((months.zip row.cells).filter
      (fun p => decide (p.1.name = nm ∧ p.2 ≠ Cell.na))).map
    (fun p => cellValue p.2)).sum

theorem processMonths_summary (env : SubEnv) (nm : String) :
    ∀ (ms : List Period) (k : Nat) (s : List (String × ℚ)),
      summaryValue (processMonths env ms k s).2 nm
        = summaryValue s nm
          + (((ms.zip (processMonths env ms k s).1).filter
              (fun p => decide (p.1.name = nm ∧ p.2 ≠ Cell.na))).map
            (fun p => cellValue p.2)).sum := by
  intro ms
  induction ms with
  | nil => intro k s; simp [processMonths]
  | cons mo rest ih =>
    intro k s
    simp only [processMonths, List.zip_cons_cons, List.filter_cons]
    rw [ih (k + 1) (summaryAdd s mo.name (get_subscription_costs (env.query k)))]
    by_cases hn : mo.name = nm
    · simp only [hn, decide_eq_true_eq]
      rw [summaryValue_add_self]
      simp [cellValue]
      ring
    · simp only [decide_eq_true_eq]
      rw [summaryValue_add_other _ _ _ _ hn]
      simp [hn]

theorem generate_rows_summary (months : List Period) (nm : String) :
    ∀ (subs : List SubEnv) (s : List (String × ℚ)),
      summaryValue (generate_rows months subs s).2 nm
        = summaryValue s nm
          + ((generate_rows months subs s).1.map
              (fun row => rowPeriodSum months row nm)).sum := by
  intro subs
  induction subs with
  | nil => intro s; simp [generate_rows]
  | cons env rest ih =>
    intro s
    cases hlk : env.lookup with
    | fails =>
      simp only [generate_rows, processSub, hlk]
      exact ih s
    | ok nm0 =>
      simp only [generate_rows, processSub, hlk]
      rw [ih ((processMonths env months 0 s).2)]
      rw [processMonths_summary env nm months 0 s]
      simp only [List.map_cons, List.sum_cons, rowPeriodSum]
      ring

/-- Three concrete months used by witnesses and counterexamples (the months a
January 2025 run produces). -/
def witMonths : List Period :=
  [{ name := "October 2024", start := "2024-10-01T00:00:00Z",
     stop := "2024-10-31T23:59:59Z" },
   { name := "November 2024", start := "2024-11-01T00:00:00Z",
     stop := "2024-11-30T23:59:59Z" },
   { name := "December 2024", start := "2024-12-01T00:00:00Z",
     stop := "2024-12-31T23:59:59Z" }]

/-- Concrete subscription: resolves as "Prod", every period costs 4. -/
def witSubA : SubEnv :=
  { id := "sub-A", lookup := .ok "Prod", query := fun _ => .result (some [[some 4]]) }

/-- Concrete subscription whose display-name lookup fails. -/
def witSubB : SubEnv :=
  { id := "sub-B", lookup := .fails, query := fun _ => .result (some [[some 100]]) }

/-- Concrete subscription: resolves as "Dev", every period costs 8. -/
def witSubC : SubEnv :=
  { id := "sub-C", lookup := .ok "Dev", query := fun _ => .result (some [[some 8]]) }

/-- Concrete subscription list for the C5 witness. -/
def witSubs : List SubEnv := [witSubA, witSubC]

/-- Concrete subscription whose cost query raises for every period. -/
def cexSub : SubEnv := { id := "sub-A", lookup := .ok "Prod", query := fun _ => .raises }

/-- Concrete subscription whose second period (index 1) query raises;
the other periods return 7. -/
def amendSub : SubEnv :=
  { id := "sub-A", lookup := .ok "Prod",
    query := fun k => if k = 1 then .raises else .result (some [[some 7]]) }

/-- Concrete subscription whose first period query returns an empty result
set; the other periods return 7. -/
def emptySub : SubEnv :=
  { id := "sub-A", lookup := .ok "Prod",
    query := fun k => if k = 0 then .result (some []) else .result (some [[some 7]]) }

/-- C5: after the aggregation loop finishes, for every period name, the
summary_data value for that name (a missing entry read as zero contribution)
equals the sum of the numeric (non-sentinel) cost values recorded for that
period across all report rows.  The month-name distinctness hypothesis records
that the Python dicts are keyed by the period names, which are distinct in
every run (three consecutive calendar months). -/
theorem summary_totals_eq_row_sums (months : List Period) (subs : List SubEnv)
    (nm : String) (hnd : (months.map Period.name).Nodup) :
    summaryValue (generate_rows months subs []).2 nm
      = ((generate_rows months subs []).1.map
          (fun row => rowPeriodSum months row nm)).sum := by
  have h := generate_rows_summary months nm subs []
  simpa [summaryValue] using h

/-- Witness for C5 on a concrete run: two subscriptions over three months,
one query with a positive cost per period; the summary equals the column
sums of the rows. -/
theorem summary_totals_eq_row_sums_witness :
    ((witMonths.map Period.name).Nodup
      ∧ summaryValue (generate_rows witMonths witSubs []).2 "November 2024"
        = ((generate_rows witMonths witSubs []).1.map
            (fun row => rowPeriodSum witMonths row "November 2024")).sum)
      ∧ summaryValue (generate_rows witMonths witSubs []).2 "November 2024" = 12 :=
  ⟨⟨by decide, summary_totals_eq_row_sums witMonths witSubs "November 2024" (by decide)⟩,
   by norm_num [witMonths, witSubs, witSubA, witSubC, generate_rows, processSub,
     processMonths, get_subscription_costs, summaryAdd, summaryValue]⟩

/-- C4: a subscription identifier whose display-name lookup fails is skipped
entirely: the run over any identifier list containing it produces exactly the
rows and summary of the run with that identifier removed — no row for it, no
contribution to any summary entry, and processing continues with the
remaining identifiers. -/
theorem failed_lookup_skipped (months : List Period) (pre post : List SubEnv)
    (env : SubEnv) (s : List (String × ℚ)) (h : env.lookup = .fails) :
    generate_rows months (pre ++ env :: post) s
      = generate_rows months (pre ++ post) s := by
  induction pre generalizing s with
  | nil => simp [generate_rows, processSub, h]
  | cons e t ih =>
    cases he : e.lookup with
    | fails => simp only [List.cons_append, generate_rows, processSub, he]; exact ih _
    | ok nm0 =>
      simp only [List.cons_append, generate_rows, processSub, he, List.append_eq]
      rw [ih]

/-- Witness for C4: with sub-B failing lookup between sub-A and sub-C, the
run equals the run on [sub-A, sub-C] alone, and concretely produces two rows
with ids sub-A, sub-C. -/
theorem failed_lookup_skipped_witness :
    (generate_rows witMonths ([witSubA] ++ witSubB :: [witSubC]) []
        = generate_rows witMonths ([witSubA] ++ [witSubC]) [])
      ∧ (generate_rows witMonths ([witSubA] ++ witSubB :: [witSubC]) []).1.map ReportRow.id
        = ["sub-A", "sub-C"] :=
  ⟨failed_lookup_skipped witMonths [witSubA] [witSubC] witSubB [] (by decide),
   by decide⟩

/-- Shared helper: if the cost query for the period at index `k` returns 0
through get_subscription_costs, then processing a subscription that resolved
its display name records the numeric cell 0 for that period, still records a
cell for every period (the failure aborts nothing), and leaves the summary
entry for that period's name unchanged. -/
theorem processSub_zero_period (months : List Period) (env : SubEnv)
    (s : List (String × ℚ)) (k : Nat) (mo : Period) (nm : String)
    (hnd : (months.map Period.name).Nodup)
    (hmo : months[k]? = some mo)
    (hlk : env.lookup = .ok nm)
    (hz : get_subscription_costs (env.query k) = 0) :
    processSub months env s
        = (some { id := env.id, name := nm,
                  cells := (processMonths env months 0 s).1 },
           (processMonths env months 0 s).2)
      ∧ (processMonths env months 0 s).1[k]? = some (Cell.num 0)
      ∧ (processMonths env months 0 s).1.length = months.length
      ∧ summaryValue (processMonths env months 0 s).2 mo.name
        = summaryValue s mo.name := by
  refine ⟨by simp [processSub, hlk], ?_, (processMonths_cells env months 0 s).1, ?_⟩
  · have h := (processMonths_cells env months 0 s).2 k mo hmo
    rw [h]
    simp only [Nat.zero_add]
    rw [hz]
  · apply processMonths_summary_zero
    intro j mo1 hj hn
    have hk : months[k]?.map Period.name = some mo.name := by rw [hmo]; rfl
    have hjn : months[j]?.map Period.name = some mo.name := by rw [hj]; simpa using hn
    have hmap : (months.map Period.name)[j]? = (months.map Period.name)[k]? := by
      rw [List.getElem?_map, List.getElem?_map, hk, hjn]
    have hjk : j = k := by
      have hjlt : j < (months.map Period.name).length := by
        rw [List.length_map]
        have := List.getElem?_eq_some_iff.mp hj
        exact this.1
      exact List.getElem?_inj hjlt hnd hmap
    subst hjk
    simpa using hz

/-- C1 counterexample: a subscription whose cost query raises for every
period.  The claimed behaviour — the row records the sentinel "N/A" for the
failed period — is false: the row records the numeric value 0 for all three
periods (and the sentinel differs from the numeric 0 cell), because
get_subscription_costs converts every exception into the return value 0.0
before the caller's except branch can see it. -/
theorem period_error_sentinel_counterexample :
    (generate_rows witMonths [cexSub] []).1
        = [{ id := "sub-A", name := "Prod",
             cells := [Cell.num 0, Cell.num 0, Cell.num 0] }]
      ∧ Cell.num 0 ≠ Cell.na
      ∧ (generate_rows witMonths [cexSub] []).2
        = [("October 2024", 0), ("November 2024", 0), ("December 2024", 0)] := by
  decide

/-- C1 as amended: for every per-period cost query that raises an error, the
subscription's report row records the numeric value 0 for that period (not
the sentinel), the SummaryTotals entry for that period receives no
contribution from that subscription (its value is unchanged by the
subscription's processing of that period), and processing continues — a cell
is still produced for every period and the row is still emitted, so the
failure aborts neither the subscription nor the run. -/
theorem period_error_records_zero (months : List Period) (env : SubEnv)
    (s : List (String × ℚ)) (k : Nat) (mo : Period) (nm : String)
    (hnd : (months.map Period.name).Nodup)
    (hmo : months[k]? = some mo)
    (hq : env.query k = .raises)
    (hlk : env.lookup = .ok nm) :
    processSub months env s
        = (some { id := env.id, name := nm,
                  cells := (processMonths env months 0 s).1 },
           (processMonths env months 0 s).2)
      ∧ (processMonths env months 0 s).1[k]? = some (Cell.num 0)
      ∧ (processMonths env months 0 s).1.length = months.length
      ∧ summaryValue (processMonths env months 0 s).2 mo.name
        = summaryValue s mo.name :=
  processSub_zero_period months env s k mo nm hnd hmo hlk (by rw [hq]; rfl)

/-- Witness for the amended C1: sub-A with the second period's query raising;
the row cell for that period is the numeric 0 and the November summary entry
is unchanged (here: absent both before and after contributes value 0). -/
theorem period_error_records_zero_witness :
    processSub witMonths amendSub []
        = (some { id := "sub-A", name := "Prod",
                  cells := (processMonths amendSub witMonths 0 []).1 },
           (processMonths amendSub witMonths 0 []).2)
      ∧ (processMonths amendSub witMonths 0 []).1[1]? = some (Cell.num 0)
      ∧ (processMonths amendSub witMonths 0 []).1.length = witMonths.length
      ∧ summaryValue (processMonths amendSub witMonths 0 []).2 "November 2024"
        = summaryValue [] "November 2024" :=
  period_error_records_zero witMonths amendSub [] 1
    { name := "November 2024", start := "2024-11-01T00:00:00Z",
      stop := "2024-11-30T23:59:59Z" }
    "Prod" (by decide) (by decide) (by decide) (by decide)

/-- C8: a cost query that returns an empty result set records the numeric
value 0 for that period — not the "N/A" sentinel, from which it differs —
still records a cell for every period, and contributes zero to that period's
SummaryTotals entry (its value is unchanged by this subscription's processing
of that period). -/
theorem empty_result_zero (months : List Period) (env : SubEnv)
    (s : List (String × ℚ)) (k : Nat) (mo : Period) (nm : String)
    (hnd : (months.map Period.name).Nodup)
    (hmo : months[k]? = some mo)
    (hq : env.query k = .result (some []))
    (hlk : env.lookup = .ok nm) :
    processSub months env s
        = (some { id := env.id, name := nm,
                  cells := (processMonths env months 0 s).1 },
           (processMonths env months 0 s).2)
      ∧ (processMonths env months 0 s).1[k]? = some (Cell.num 0)
      ∧ Cell.num 0 ≠ Cell.na
      ∧ (processMonths env months 0 s).1.length = months.length
      ∧ summaryValue (processMonths env months 0 s).2 mo.name
        = summaryValue s mo.name := by
  have h := processSub_zero_period months env s k mo nm hnd hmo hlk (by rw [hq]; rfl)
  exact ⟨h.1, h.2.1, by decide, h.2.2.1, h.2.2.2⟩

/-- Witness for C8: sub-A with the first period's query returning no rows;
the cell for October is the numeric 0 and the October summary entry receives
zero contribution. -/
theorem empty_result_zero_witness :
    processSub witMonths emptySub []
        = (some { id := "sub-A", name := "Prod",
                  cells := (processMonths emptySub witMonths 0 []).1 },
           (processMonths emptySub witMonths 0 []).2)
      ∧ (processMonths emptySub witMonths 0 []).1[0]? = some (Cell.num 0)
      ∧ Cell.num 0 ≠ Cell.na
      ∧ (processMonths emptySub witMonths 0 []).1.length = witMonths.length
      ∧ summaryValue (processMonths emptySub witMonths 0 []).2 "October 2024"
        = summaryValue [] "October 2024" :=
  empty_result_zero witMonths emptySub [] 0
    { name := "October 2024", start := "2024-10-01T00:00:00Z",
      stop := "2024-10-31T23:59:59Z" }
    "Prod" (by decide) (by decide) (by decide) (by decide)

/-! ## Environment parsing, file write, email send, and main -/

/-- Python str.strip strips these whitespace characters. -/
def isPyWs (c : Char) : Bool :=
  c.toNat = 32 || c.toNat = 9 || c.toNat = 10 || c.toNat = 13
    || c.toNat = 11 || c.toNat = 12

/-- Python `s.split(",")` on the character list: the empty string yields one
empty piece, and every comma starts a new piece. -/
def splitCommaChars : List Char → List (List Char)
  | [] => [[]]
  | c :: t =>
    let r := splitCommaChars t
    if c = ',' then [] :: r
    else
      match r with
      | h :: rt => (c :: h) :: rt
      | [] => [[c]]

/-- Python str.strip on a character list. -/
def pyStrip (l : List Char) : List Char :=
  ((l.dropWhile isPyWs).reverse.dropWhile isPyWs).reverse

/-- `[x.strip() for x in s.split(",") if x.strip()]`, the parsing used for
both SUBSCRIPTION_IDS and RECEIVER_EMAILS. -/
def parseEnvList (s : String) : List String :=
  ((splitCommaChars s.data).map (fun l => (⟨pyStrip l⟩ : String))).filter
    (fun x => x ≠ "")

/-- Outcome of opening and writing the report CSV file. -/
inductive WriteOutcome where
  | ok
  | permissionDenied
  | otherError (msg : String)
  deriving DecidableEq

/-- Everything outside the program that generate_cost_report observes: the
SUBSCRIPTION_IDS environment variable, whether credential validation
succeeds, the per-identifier lookup and per-period query outcomes, the file
write outcome, and the current instant. -/
structure GenWorld where
  subscription_ids : Option String
  authOk : Bool
  lookupOf : String → LookupOutcome
  queryOf : String → Nat → QueryOutcome
  writeOutcome : WriteOutcome
  now : DateTime

/-- The report filename, unique per run through the embedded timestamp. -/
def genFileName (d : DateTime) : String :=
  "azure_cost_report_" ++ fmtFileStamp d ++ ".csv"

/-- The two console lines of the PermissionError branch (quote characters of
the original text omitted). -/
def permissionDeniedMsgs (fname : String) : List String :=
  ["Permission Denied: Could not write to " ++ fname ++ ".",
   "Please ensure the file is not open in another program and that you have write permissions for this directory."]

/-- The console line of the generic write-failure branch, carrying the
exception text. -/
def writeOtherErrorMsgs (e : String) : List String :=
  ["An unexpected error occurred while writing the file: " ++ e]

/-- Result of generate_cost_report: the returned pair (file_name,
summary_data) — (None, None) on every failure path — plus the names of files
now present on local storage and the console messages of the taken branch. -/
structure GenOutput where
  csvFile : Option String
  summary : Option (List (String × ℚ))
  files : List String
  messages : List String
  deriving DecidableEq

/-- The SubEnv views of the configured subscription identifiers in a world. -/
def genSubs (w : GenWorld) : List SubEnv :=
  (parseEnvList (w.subscription_ids.getD "")).map (fun i =>
    { id := i, lookup := w.lookupOf i, query := w.queryOf i })

/-- The summary_data a world's aggregation loop produces. -/
def genSummary (w : GenWorld) : List (String × ℚ) :=
  (generate_rows (get_last_three_full_months w.now) (genSubs w) []).2

/-- generate_cost_report: read and parse SUBSCRIPTION_IDS (unset or empty or
blank-only aborts; `not subscription_ids_str` is Python-falsy exactly for an
unset variable or the empty string), validate credentials (failure aborts),
aggregate rows and summary over the three months, then write the CSV; a write
failure returns (None, None) with a branch-specific message and leaves no
report file. -/
def generate_cost_report (w : GenWorld) : GenOutput :=
  if w.subscription_ids.getD "" = "" then
    { csvFile := none, summary := none, files := [],
      messages := ["Error: SUBSCRIPTION_IDS environment variable is not set."] }
  else if parseEnvList (w.subscription_ids.getD "") = [] then
    { csvFile := none, summary := none, files := [],
      messages := ["Please add at least one subscription ID to the SUBSCRIPTION_IDS environment variable."] }
  else if w.authOk = false then
    { csvFile := none, summary := none, files := [],
      messages := ["Authentication failed. Please ensure you have configured credentials."] }
  else
    match w.writeOutcome with
    | .ok =>
      { csvFile := some (genFileName w.now), summary := some (genSummary w),
        files := [genFileName w.now],
        messages := ["Cost report successfully saved to " ++ genFileName w.now] }
    | .permissionDenied =>
      { csvFile := none, summary := none, files := [],
        messages := permissionDeniedMsgs (genFileName w.now) }
    | .otherError e =>
      { csvFile := none, summary := none, files := [],
        messages := writeOtherErrorMsgs e }

/-- Everything outside the program that send_email_with_attachment observes:
the three environment variables, whether re-reading the CSV file raises, and
whether the SendGrid build-and-send block raises. -/
structure SendWorld where
  sendgrid_api_key : Option String
  sender_email : Option String
  receiver_emails : Option String
  readFails : Bool
  deliveryRaises : Bool
  statusCode : Nat

/-- How send_email_with_attachment terminates: which early return was taken,
or the delivery call outcome.  The Python function returns True exactly for
`delivered`. -/
inductive SendResult where
  | missingEnv
  | noRecipients
  | readFailed
  | deliveryFailed
  | delivered (status : Nat)
  deriving DecidableEq

/-- send_email_with_attachment: missing (unset or empty) API key, sender or
recipients string aborts; a recipient list empty after stripping blanks
aborts; a failure reading the CSV back aborts; otherwise the message is built
and handed to the delivery service, whose exception is caught and reported as
False. -/
def send_email_with_attachment (sw : SendWorld) : SendResult :=
  if sw.sendgrid_api_key.getD "" = "" ∨ sw.sender_email.getD "" = ""
      ∨ sw.receiver_emails.getD "" = "" then
    .missingEnv
  else
    let to_emails := parseEnvList (sw.receiver_emails.getD "")
    if to_emails = [] then .noRecipients
    else if sw.readFails then .readFailed
    else if sw.deliveryRaises then .deliveryFailed
    else .delivered sw.statusCode

/-- The boolean send_email_with_attachment returns. -/
def sendReturn : SendResult → Bool
  | .delivered _ => true
  | _ => false

/-- Whether the run reached the delivery-service call (`sg.send`). -/
def deliveryApiCalled : SendResult → Bool
  | .delivered _ => true
  | .deliveryFailed => true
  | _ => false

/-- Whether the send step ended in one of the two configuration-error early
returns. -/
def isConfigFailure : SendResult → Bool
  | .missingEnv => true
  | .noRecipients => true
  | _ => false

/-- The observable outcome of one whole run of main. -/
structure RunResult where
  csvFile : Option String
  summary : Option (List (String × ℚ))
  files : List String
  sendAttempted : Bool
  sendOutcome : Option SendResult
  finalMessages : List String
  deriving DecidableEq

/-- main: generate the report; only when both returned values are truthy
(a non-empty filename string and a non-empty summary dict) call
send_email_with_attachment and report its boolean; otherwise report overall
failure.  Nothing ever removes a written file from storage. -/
def main (w : GenWorld) (sw : SendWorld) : RunResult :=
  match (generate_cost_report w).csvFile, (generate_cost_report w).summary with
  | some f, some sm =>
    if f ≠ "" ∧ sm ≠ [] then
      { csvFile := some f, summary := some sm,
        files := (generate_cost_report w).files,
        sendAttempted := true,
        sendOutcome := some (send_email_with_attachment sw),
        finalMessages :=
          if sendReturn (send_email_with_attachment sw) then
            ["Process completed successfully", "Report generated: " ++ f,
             "Email sent to IT Admin"]
          else ["Failed to send email. Report was generated but not sent."] }
    else
      { csvFile := (generate_cost_report w).csvFile,
        summary := (generate_cost_report w).summary,
        files := (generate_cost_report w).files,
        sendAttempted := false, sendOutcome := none,
        finalMessages := ["Failed to generate cost report."] }
  | _, _ =>
    { csvFile := (generate_cost_report w).csvFile,
      summary := (generate_cost_report w).summary,
      files := (generate_cost_report w).files,
      sendAttempted := false, sendOutcome := none,
      finalMessages := ["Failed to generate cost report."] }

theorem gen_write_fail_none (w : GenWorld) (hw : w.writeOutcome ≠ .ok) :
    (generate_cost_report w).csvFile = none
      ∧ (generate_cost_report w).summary = none := by
  unfold generate_cost_report
  cases hwo : w.writeOutcome with
  | ok => exact absurd hwo hw
  | permissionDenied => split_ifs <;> simp
  | otherError e => split_ifs <;> simp

theorem gen_file_written (w : GenWorld) (f : String)
    (h : (generate_cost_report w).csvFile = some f) :
    (generate_cost_report w).files = [f] := by
  unfold generate_cost_report at h ⊢
  split_ifs at h ⊢ <;> try simp at h
  cases hwo : w.writeOutcome <;> simp_all

theorem main_files_eq (w : GenWorld) (sw : SendWorld) :
    (main w sw).files = (generate_cost_report w).files := by
  unfold main
  cases h1 : (generate_cost_report w).csvFile with
  | none => rfl
  | some f =>
    cases h2 : (generate_cost_report w).summary with
    | none => rfl
    | some sm => by_cases h3 : f ≠ "" ∧ sm ≠ [] <;> simp [h3]

theorem main_no_send_of_none (w : GenWorld) (sw : SendWorld)
    (h : (generate_cost_report w).csvFile = none) :
    (main w sw).sendAttempted = false ∧ (main w sw).sendOutcome = none := by
  unfold main
  rw [h]
  exact ⟨rfl, rfl⟩

/-- C6: when writing the report file fails, generate_cost_report returns the
failure indicators (None, None) and main never invokes the send step; and the
user-facing report printed for a permission-denied failure differs from the
one printed for any other write failure; when the run has reached the write
step, those are exactly the messages produced. -/
theorem write_failure_aborts_send (w : GenWorld) (sw : SendWorld)
    (hw : w.writeOutcome ≠ .ok) :
    (generate_cost_report w).csvFile = none
      ∧ (generate_cost_report w).summary = none
      ∧ (main w sw).sendAttempted = false
      ∧ (main w sw).sendOutcome = none
      ∧ (∀ f e, permissionDeniedMsgs f ≠ writeOtherErrorMsgs e)
      ∧ (∀ s, w.subscription_ids = some s → parseEnvList s ≠ [] →
          w.authOk = true → w.writeOutcome = .permissionDenied →
          (generate_cost_report w).messages
            = permissionDeniedMsgs (genFileName w.now))
      ∧ (∀ s e, w.subscription_ids = some s → parseEnvList s ≠ [] →
          w.authOk = true → w.writeOutcome = .otherError e →
          (generate_cost_report w).messages = writeOtherErrorMsgs e) := by
  have hnone := gen_write_fail_none w hw
  refine ⟨hnone.1, hnone.2, (main_no_send_of_none w sw hnone.1).1,
    (main_no_send_of_none w sw hnone.1).2, ?_, ?_, ?_⟩
  · intro f e hcontra
    have := congrArg List.length hcontra
    simp [permissionDeniedMsgs, writeOtherErrorMsgs] at this
  · intro s hs hps hauth hperm
    have hs0 : s ≠ "" := by
      rintro rfl
      exact hps (by decide)
    simp [generate_cost_report, hs, hs0, hps, hauth, hperm]
  · intro s e hs hps hauth hoth
    have hs0 : s ≠ "" := by
      rintro rfl
      exact hps (by decide)
    simp [generate_cost_report, hs, hs0, hps, hauth, hoth]

/-- Concrete world for the C6 witness: a healthy run whose CSV write raises
PermissionError. -/
def c6World : GenWorld :=
  { subscription_ids := some "sub-a", authOk := true,
    lookupOf := fun _ => .ok "Prod",
    queryOf := fun _ _ => .result (some [[some 4]]),
    writeOutcome := .permissionDenied, now := ⟨2025, 1, 16, 9, 30, 0⟩ }

/-- Concrete fully-configured send environment. -/
def okSend : SendWorld :=
  { sendgrid_api_key := some "k", sender_email := some "sender@x.y",
    receiver_emails := some "admin@x.y", readFails := false,
    deliveryRaises := false, statusCode := 202 }

/-- Witness for C6 at the concrete permission-denied world. -/
theorem write_failure_aborts_send_witness :
    (generate_cost_report c6World).csvFile = none
      ∧ (generate_cost_report c6World).summary = none
      ∧ (main c6World okSend).sendAttempted = false
      ∧ (main c6World okSend).sendOutcome = none
      ∧ (∀ f e, permissionDeniedMsgs f ≠ writeOtherErrorMsgs e)
      ∧ (∀ s, c6World.subscription_ids = some s → parseEnvList s ≠ [] →
          c6World.authOk = true → c6World.writeOutcome = .permissionDenied →
          (generate_cost_report c6World).messages
            = permissionDeniedMsgs (genFileName c6World.now))
      ∧ (∀ s e, c6World.subscription_ids = some s → parseEnvList s ≠ [] →
          c6World.authOk = true → c6World.writeOutcome = .otherError e →
          (generate_cost_report c6World).messages = writeOtherErrorMsgs e) :=
  write_failure_aborts_send c6World okSend (by decide)

/-- Concrete world for the C3 counterexample: the run authenticates, the only
subscription fails its display-name lookup, and the CSV write succeeds — so
the report file is written with an empty summary dict. -/
def c3World : GenWorld :=
  { subscription_ids := some "sub-a", authOk := true,
    lookupOf := fun _ => .fails,
    queryOf := fun _ _ => .result (some [[some 4]]),
    writeOutcome := .ok, now := ⟨2025, 1, 16, 9, 30, 0⟩ }

/-- C3 counterexample: a run that reaches a successful report-file write
(the file is on storage and generate_cost_report returned its name) in which
the email send step is nevertheless not attempted — because
`if csv_file and summary_data:` treats the empty summary dict as falsy, main
reports overall failure without calling send_email_with_attachment.  This
refutes the claim that every run reaching a successful write then attempts
the send. -/
theorem written_but_send_skipped_counterexample :
    (main c3World okSend).csvFile
        = some (genFileName ⟨2025, 1, 16, 9, 30, 0⟩)
      ∧ (main c3World okSend).files = [genFileName ⟨2025, 1, 16, 9, 30, 0⟩]
      ∧ (main c3World okSend).summary = some []
      ∧ (main c3World okSend).sendAttempted = false
      ∧ (main c3World okSend).finalMessages = ["Failed to generate cost report."] := by
  decide

/-- C3 as amended: in every run whose report-file write succeeds and whose
summary is non-empty, the send step is attempted; a delivery-service error
during that send is caught (send_email_with_attachment terminates with the
deliveryFailed result rather than propagating), reported as a failure (the
returned boolean is False and main prints the send-failure line), and the
already-written report file is still on local storage. -/
theorem send_failure_reported_file_kept (w : GenWorld) (sw : SendWorld)
    (f : String) (sm : List (String × ℚ))
    (hf : (generate_cost_report w).csvFile = some f)
    (hsm : (generate_cost_report w).summary = some sm)
    (hf0 : f ≠ "") (hsm0 : sm ≠ [])
    (hk : sw.sendgrid_api_key.getD "" ≠ "")
    (hs : sw.sender_email.getD "" ≠ "")
    (hr : sw.receiver_emails.getD "" ≠ "")
    (hto : parseEnvList (sw.receiver_emails.getD "") ≠ [])
    (hread : sw.readFails = false)
    (hdel : sw.deliveryRaises = true) :
    (main w sw).sendAttempted = true
      ∧ (main w sw).sendOutcome = some SendResult.deliveryFailed
      ∧ sendReturn SendResult.deliveryFailed = false
      ∧ (main w sw).finalMessages
        = ["Failed to send email. Report was generated but not sent."]
      ∧ (main w sw).files = [f] := by
  have hsend : send_email_with_attachment sw = .deliveryFailed := by
    unfold send_email_with_attachment
    rw [if_neg (by push_neg; exact ⟨hk, hs, hr⟩)]
    simp [hto, hread, hdel]
  have hmain : main w sw
      = { csvFile := some f, summary := some sm,
          files := (generate_cost_report w).files, sendAttempted := true,
          sendOutcome := some .deliveryFailed,
          finalMessages :=
            ["Failed to send email. Report was generated but not sent."] } := by
    unfold main
    rw [hf, hsm]
    simp [hf0, hsm0, hsend, sendReturn]
  rw [hmain]
  exact ⟨rfl, rfl, rfl, rfl, by simpa using gen_file_written w f hf⟩

/-- Concrete world for the C3 amended witness: one healthy subscription,
write succeeds, delivery raises. -/
def c3OkWorld : GenWorld :=
  { subscription_ids := some "sub-a", authOk := true,
    lookupOf := fun _ => .ok "Prod",
    queryOf := fun _ _ => .result (some [[some 4]]),
    writeOutcome := .ok, now := ⟨2025, 1, 16, 9, 30, 0⟩ }

/-- Concrete send environment whose delivery call raises. -/
def failSend : SendWorld :=
  { sendgrid_api_key := some "k", sender_email := some "sender@x.y",
    receiver_emails := some "admin@x.y", readFails := false,
    deliveryRaises := true, statusCode := 500 }

/-- Witness for the amended C3 at a concrete run with a delivery failure. -/
theorem send_failure_reported_file_kept_witness :
    (main c3OkWorld failSend).sendAttempted = true
      ∧ (main c3OkWorld failSend).sendOutcome = some SendResult.deliveryFailed
      ∧ sendReturn SendResult.deliveryFailed = false
      ∧ (main c3OkWorld failSend).finalMessages
        = ["Failed to send email. Report was generated but not sent."]
      ∧ (main c3OkWorld failSend).files
        = [genFileName ⟨2025, 1, 16, 9, 30, 0⟩] :=
  send_failure_reported_file_kept c3OkWorld failSend
    (genFileName ⟨2025, 1, 16, 9, 30, 0⟩)
    [("October 2024", 4), ("November 2024", 4), ("December 2024", 4)]
    (by decide) (by decide) (by decide) (by decide) (by decide) (by decide)
    (by decide) (by decide) (by decide) (by decide)

/-- C7: if the delivery credential, the sender address, or the recipient
string is missing (unset or empty), or the recipient list is empty after
trimming blank entries, then send_email_with_attachment takes one of its two
configuration-error early returns: it reports a configuration failure,
returns False, and the delivery API is never called. -/
theorem missing_send_config_aborts (sw : SendWorld)
    (h : sw.sendgrid_api_key.getD "" = "" ∨ sw.sender_email.getD "" = ""
        ∨ sw.receiver_emails.getD "" = ""
        ∨ parseEnvList (sw.receiver_emails.getD "") = []) :
    (send_email_with_attachment sw = .missingEnv
        ∨ send_email_with_attachment sw = .noRecipients)
      ∧ isConfigFailure (send_email_with_attachment sw) = true
      ∧ sendReturn (send_email_with_attachment sw) = false
      ∧ deliveryApiCalled (send_email_with_attachment sw) = false := by
  by_cases hm : sw.sendgrid_api_key.getD "" = "" ∨ sw.sender_email.getD "" = ""
      ∨ sw.receiver_emails.getD "" = ""
  · have he : send_email_with_attachment sw = .missingEnv := by
      unfold send_email_with_attachment
      rw [if_pos hm]
    rw [he]
    exact ⟨Or.inl rfl, rfl, rfl, rfl⟩
  · have hto : parseEnvList (sw.receiver_emails.getD "") = [] := by tauto
    have he : send_email_with_attachment sw = .noRecipients := by
      unfold send_email_with_attachment
      rw [if_neg hm]
      simp [hto]
    rw [he]
    exact ⟨Or.inr rfl, rfl, rfl, rfl⟩

/-- Concrete send environment whose recipient string is non-empty but
contains only blanks and commas, so the trimmed recipient list is empty. -/
def blankRecipients : SendWorld :=
  { sendgrid_api_key := some "k", sender_email := some "sender@x.y",
    receiver_emails := some " ,  , ", readFails := false,
    deliveryRaises := false, statusCode := 202 }

/-- Witness for C7: the blank-recipient environment aborts with a
configuration error before any delivery call. -/
theorem missing_send_config_aborts_witness :
    (send_email_with_attachment blankRecipients = .missingEnv
        ∨ send_email_with_attachment blankRecipients = .noRecipients)
      ∧ isConfigFailure (send_email_with_attachment blankRecipients) = true
      ∧ sendReturn (send_email_with_attachment blankRecipients) = false
      ∧ deliveryApiCalled (send_email_with_attachment blankRecipients) = false :=
  missing_send_config_aborts blankRecipients (by decide)

/-! ## Decimal rendering of cost values for the CSV file

Python floats are written to the CSV with str(), which prints a finite
decimal (sign, integer digits, a point, fraction digits).  A written cost
value is therefore modelled as a pair (m, e) denoting m / 10^e, rendered with
exactly e fraction digits; re-reading parses the same pair back. -/

/-- Decimal digit to its character. -/
def digitToChar (d : Nat) : Char :=
  if d = 0 then '0' else if d = 1 then '1' else if d = 2 then '2'
  else if d = 3 then '3' else if d = 4 then '4' else if d = 5 then '5'
  else if d = 6 then '6' else if d = 7 then '7' else if d = 8 then '8' else '9'

/-- Is the character an ASCII decimal digit. -/
def isDigitCh (c : Char) : Bool := 48 ≤ c.toNat && c.toNat ≤ 57

/-- Value of an ASCII decimal digit character. -/
def chDigitVal (c : Char) : Nat := c.toNat - 48

theorem digitToChar_val (d : Nat) (h : d < 10) : chDigitVal (digitToChar d) = d := by
  interval_cases d <;> decide

theorem digitToChar_isDigit (d : Nat) : isDigitCh (digitToChar d) = true := by
  unfold digitToChar isDigitCh
  split_ifs <;> decide

theorem digitToChar_mem (d : Nat) :
    digitToChar d = '0' ∨ digitToChar d = '1' ∨ digitToChar d = '2'
      ∨ digitToChar d = '3' ∨ digitToChar d = '4' ∨ digitToChar d = '5'
      ∨ digitToChar d = '6' ∨ digitToChar d = '7' ∨ digitToChar d = '8'
      ∨ digitToChar d = '9' := by
  unfold digitToChar
  split_ifs <;> simp

/-- Consume a maximal run of digit characters, returning their values in
reading order and the remaining characters. -/
def readDigits : List Char → List Nat × List Char
  | [] => ([], [])
  | c :: t =>
    if isDigitCh c then (chDigitVal c :: (readDigits t).1, (readDigits t).2)
    else ([], c :: t)

theorem readDigits_append (ds : List Nat) (hds : ∀ d ∈ ds, d < 10)
    (rest : List Char) (hrest : ∀ c, rest.head? = some c → isDigitCh c = false) :
    readDigits (ds.map digitToChar ++ rest) = (ds, rest) := by
  induction ds with
  | nil =>
    simp only [List.map_nil, List.nil_append]
    cases rest with
    | nil => rfl
    | cons c t =>
      have hc := hrest c rfl
      simp [readDigits, hc]
  | cons d t ih =>
    have hd : d < 10 := hds d (by simp)
    simp only [List.map_cons, List.cons_append, readDigits, digitToChar_isDigit d,
      if_true, List.append_eq]
    rw [ih (fun x hx => hds x (by simp [hx]))]
    simp [digitToChar_val d hd]

/-- The little-endian digits of `n`, zero-padded to length at least e + 1 so
that there is at least one integer digit in front of the e fraction digits. -/
def padDigits (n e : Nat) : List Nat :=
  Nat.digits 10 n ++ List.replicate (e + 1 - (Nat.digits 10 n).length) 0

/-- Value of big-endian digit list. -/
def ofDigitsBE (ds : List Nat) : Nat := Nat.ofDigits 10 ds.reverse

/-- Value of a decimal with big-endian integer digits and fraction digits,
scaled by 10^(number of fraction digits). -/
def decVal (ints fracs : List Nat) : Nat :=
  Nat.ofDigits 10 (fracs.reverse ++ ints.reverse)

/-- Render m / 10^e as Python str prints a float in its plain-decimal
regime: optional minus sign, integer digits, then (when e > 0) a point and
exactly e fraction digits. -/
def renderDecChars (m : Int) (e : Nat) : List Char :=
  (if m < 0 then ['-'] else [])
    ++ ((padDigits m.natAbs e).drop e).reverse.map digitToChar
    ++ (if e = 0 then [] else
        '.' :: ((padDigits m.natAbs e).take e).reverse.map digitToChar)

/-- Parse an unsigned decimal: digits, optionally a point followed by
digits and nothing else; returns the scaled value and the number of
fraction digits. -/
def parseUDec (l : List Char) : Option (Nat × Nat) :=
  if (readDigits l).1 = [] then none
  else
    match (readDigits l).2 with
    | [] => some (ofDigitsBE (readDigits l).1, 0)
    | c :: t =>
      if c = '.' then
        if (readDigits t).1 = [] then none
        else if (readDigits t).2 ≠ [] then none
        else some (decVal (readDigits l).1 (readDigits t).1,
          (readDigits t).1.length)
      else none

/-- Parse an optionally-signed decimal into the (m, e) pair. -/
def parseDecChars (l : List Char) : Option (Int × Nat) :=
  if l.head? = some '-' then
    (parseUDec l.tail).map (fun p => (-(p.1 : Int), p.2))
  else
    (parseUDec l).map (fun p => ((p.1 : Int), p.2))

theorem ofDigits_replicate_zero (k : Nat) :
    Nat.ofDigits 10 (List.replicate k 0) = 0 := by
  induction k with
  | zero => rfl
  | succ j ih => simp [List.replicate_succ, Nat.ofDigits_cons, ih]

theorem padDigits_val (n e : Nat) : Nat.ofDigits 10 (padDigits n e) = n := by
  unfold padDigits
  rw [Nat.ofDigits_append, Nat.ofDigits_digits, ofDigits_replicate_zero]
  ring

theorem padDigits_len (n e : Nat) : e + 1 ≤ (padDigits n e).length := by
  unfold padDigits
  rw [List.length_append, List.length_replicate]
  omega

theorem padDigits_lt (n e : Nat) : ∀ d ∈ padDigits n e, d < 10 := by
  intro d hd
  unfold padDigits at hd
  rcases List.mem_append.mp hd with h | h
  · exact Nat.digits_lt_base (by norm_num) h
  · rw [List.eq_of_mem_replicate h]
    norm_num

theorem digitToChar_ne_dash (d : Nat) : digitToChar d ≠ '-' := by
  unfold digitToChar
  split_ifs <;> decide

theorem parseUDec_plain (I : List Nat) (hIdig : ∀ d ∈ I, d < 10) (hIne : I ≠ []) :
    parseUDec (I.map digitToChar) = some (ofDigitsBE I, 0) := by
  have hrd : readDigits (I.map digitToChar) = (I, []) := by
    have h := readDigits_append I hIdig [] (by intro c hc; simp at hc)
    rwa [List.append_nil] at h
  unfold parseUDec
  rw [hrd]
  simp [hIne]

theorem parseUDec_frac (I F : List Nat) (hIdig : ∀ d ∈ I, d < 10)
    (hFdig : ∀ d ∈ F, d < 10) (hIne : I ≠ []) (hFne : F ≠ []) :
    parseUDec (I.map digitToChar ++ '.' :: F.map digitToChar)
      = some (decVal I F, F.length) := by
  have hrdF : readDigits (F.map digitToChar) = (F, []) := by
    have h := readDigits_append F hFdig [] (by intro c hc; simp at hc)
    rwa [List.append_nil] at h
  have hrdI : readDigits (I.map digitToChar ++ '.' :: F.map digitToChar)
      = (I, '.' :: F.map digitToChar) := by
    apply readDigits_append I hIdig
    intro c hc
    simp at hc
    rw [← hc]
    decide
  unfold parseUDec
  rw [hrdI]
  simp [hIne, hrdF, hFne]

/-- Round trip for one written cost value: parsing the rendered decimal
recovers exactly the (m, e) pair. -/
theorem parseDec_renderDec (m : Int) (e : Nat) :
    parseDecChars (renderDecChars m e) = some (m, e) := by
  have hlen := padDigits_len m.natAbs e
  have hIdig : ∀ d ∈ ((padDigits m.natAbs e).drop e).reverse, d < 10 := by
    intro d hd
    exact padDigits_lt m.natAbs e d (List.drop_subset e _ (List.mem_reverse.mp hd))
  have hFdig : ∀ d ∈ ((padDigits m.natAbs e).take e).reverse, d < 10 := by
    intro d hd
    exact padDigits_lt m.natAbs e d (List.take_subset e _ (List.mem_reverse.mp hd))
  have hIne : ((padDigits m.natAbs e).drop e).reverse ≠ [] := by
    apply List.length_pos.mp
    rw [List.length_reverse, List.length_drop]
    omega
  have hsplit : Nat.ofDigits 10 (padDigits m.natAbs e)
      = Nat.ofDigits 10 ((padDigits m.natAbs e).take e)
        + 10 ^ e * Nat.ofDigits 10 ((padDigits m.natAbs e).drop e) := by
    have h1 : ((padDigits m.natAbs e).take e).length = e := by
      rw [List.length_take]
      omega
    conv_lhs => rw [← List.take_append_drop e (padDigits m.natAbs e)]
    rw [Nat.ofDigits_append, h1]
  by_cases he : e = 0
  · subst he
    have hU : parseUDec (((padDigits m.natAbs 0).drop 0).reverse.map digitToChar)
        = some (m.natAbs, 0) := by
      rw [parseUDec_plain _ hIdig hIne]
      rw [ofDigitsBE, List.reverse_reverse, List.drop_zero, padDigits_val]
    have hrender : renderDecChars m 0
        = (if m < 0 then ['-'] else [])
          ++ ((padDigits m.natAbs 0).drop 0).reverse.map digitToChar := by
      unfold renderDecChars
      simp
    by_cases hm : m < 0
    · rw [hrender, if_pos hm, List.singleton_append]
      unfold parseDecChars
      rw [List.head?_cons, if_pos rfl, List.tail_cons, hU]
      simp only [Option.map_some', Option.some.injEq, Prod.mk.injEq]
      exact ⟨by omega, trivial⟩
    · obtain ⟨d, I2, hI2⟩ := List.exists_cons_of_ne_nil hIne
      rw [hrender, if_neg hm, List.nil_append]
      unfold parseDecChars
      rw [hI2]
      simp only [List.map_cons, List.head?_cons]
      rw [if_neg (by simp [digitToChar_ne_dash d])]
      rw [← List.map_cons, ← hI2, hU]
      simp only [Option.map_some', Option.some.injEq, Prod.mk.injEq]
      exact ⟨by omega, trivial⟩
  · have hFne : ((padDigits m.natAbs e).take e).reverse ≠ [] := by
      apply List.length_pos.mp
      rw [List.length_reverse, List.length_take]
      omega
    have hdv : decVal ((padDigits m.natAbs e).drop e).reverse
        ((padDigits m.natAbs e).take e).reverse = m.natAbs := by
      rw [decVal, List.reverse_reverse, List.reverse_reverse,
        List.take_append_drop, padDigits_val]
    have hFlen : ((padDigits m.natAbs e).take e).reverse.length = e := by
      rw [List.length_reverse, List.length_take]
      omega
    have hU : parseUDec (((padDigits m.natAbs e).drop e).reverse.map digitToChar
        ++ '.' :: ((padDigits m.natAbs e).take e).reverse.map digitToChar)
        = some (m.natAbs, e) := by
      rw [parseUDec_frac _ _ hIdig hFdig hIne hFne, hdv, hFlen]
    have hrender : renderDecChars m e
        = (if m < 0 then ['-'] else [])
          ++ (((padDigits m.natAbs e).drop e).reverse.map digitToChar
            ++ '.' :: ((padDigits m.natAbs e).take e).reverse.map digitToChar) := by
      unfold renderDecChars
      rw [if_neg he, List.append_assoc]
    by_cases hm : m < 0
    · rw [hrender, if_pos hm, List.singleton_append]
      unfold parseDecChars
      rw [List.head?_cons, if_pos rfl, List.tail_cons, hU]
      simp only [Option.map_some', Option.some.injEq, Prod.mk.injEq]
      exact ⟨by omega, trivial⟩
    · obtain ⟨d, I2, hI2⟩ := List.exists_cons_of_ne_nil hIne
      rw [hrender, if_neg hm, List.nil_append]
      unfold parseDecChars
      rw [hI2]
      simp only [List.map_cons, List.cons_append, List.head?_cons]
      rw [if_neg (by simp [digitToChar_ne_dash d])]
      rw [← List.cons_append, ← List.map_cons, ← hI2, hU]
      simp only [Option.map_some', Option.some.injEq, Prod.mk.injEq]
      exact ⟨by omega, trivial⟩

/-! ## The CSV layer

csv.writer with the default dialect: fields joined by commas, records
terminated by CRLF, a field quoted exactly when it contains a delimiter,
quote, CR or LF (QUOTE_MINIMAL), embedded quotes doubled.  The reader parses
that format back. -/

/-- Characters that force QUOTE_MINIMAL to quote a field. -/
def isCsvSpecial (c : Char) : Bool :=
  c = ',' || c = '"' || c = '\r' || c = '\n'

/-- Whether a field must be quoted. -/
def needsQuoting (l : List Char) : Bool := l.any isCsvSpecial

/-- Double each embedded quote (the doublequote escaping of csv). -/
def escapeQ : List Char → List Char
  | [] => []
  | c :: t => if c = '"' then '"' :: '"' :: escapeQ t else c :: escapeQ t

/-- Serialize one field, quoting it when needed. -/
def encodeField (l : List Char) : List Char :=
  if needsQuoting l then '"' :: (escapeQ l ++ ['"']) else l

/-- Serialize one record: fields joined by commas. -/
def encodeRow : List (List Char) → List Char
  | [] => []
  | f :: t =>
    match t with
    | [] => encodeField f
    | _ :: _ => encodeField f ++ ',' :: encodeRow t

/-- Serialize a whole file: each record followed by CRLF. -/
def encodeReport : List (List (List Char)) → List Char
  | [] => []
  | r :: rs => encodeRow r ++ '\r' :: '\n' :: encodeReport rs

/-- Parse the remainder of a quoted field (after its opening quote):
a doubled quote is a literal quote, a lone quote closes the field. -/
def parseQuoted : List Char → Option (List Char × List Char)
  | [] => none
  | c :: rest =>
    if c = '"' then
      match rest with
      | [] => some ([], [])
      | d :: rest2 =>
        if d = '"' then (parseQuoted rest2).map (fun p => ('"' :: p.1, p.2))
        else some ([], rest)
    else (parseQuoted rest).map (fun p => (c :: p.1, p.2))

/-- Parse an unquoted field: characters up to a comma or CR. -/
def parseUnquoted : List Char → List Char × List Char
  | [] => ([], [])
  | c :: rest =>
    if c = ',' ∨ c = '\r' then ([], c :: rest)
    else ((c :: (parseUnquoted rest).1), (parseUnquoted rest).2)

/-- Parse one field, quoted or not. -/
def parseField (l : List Char) : Option (List Char × List Char) :=
  match l with
  | [] => some ([], [])
  | c :: rest =>
    if c = '"' then parseQuoted rest
    else some (parseUnquoted (c :: rest))

theorem parseUnquoted_len (l : List Char) : (parseUnquoted l).2.length ≤ l.length := by
  induction l with
  | nil => simp [parseUnquoted]
  | cons c rest ih =>
    by_cases hc : c = ',' ∨ c = '\r'
    · simp [parseUnquoted, hc]
    · simp only [parseUnquoted, hc, if_false, List.length_cons]
      omega

theorem parseQuoted_len_aux :
    ∀ (n : Nat) (l : List Char), l.length ≤ n →
      ∀ p, parseQuoted l = some p → p.2.length < l.length := by
  intro n
  induction n with
  | zero =>
    intro l hl p h
    have h0 : l = [] := List.length_eq_zero.mp (by omega)
    subst h0
    simp [parseQuoted] at h
  | succ k ih =>
    intro l hl p h
    cases l with
    | nil => simp [parseQuoted] at h
    | cons c rest =>
      rw [parseQuoted.eq_def] at h
      simp only [] at h
      by_cases hc : c = '"'
      · rw [if_pos hc] at h
        cases rest with
        | nil =>
          simp only [Option.some.injEq] at h
          rw [← h]
          simp
        | cons d rest2 =>
          simp only [] at h
          by_cases hd : d = '"'
          · rw [if_pos hd] at h
            cases hq : parseQuoted rest2 with
            | none => rw [hq] at h; simp at h
            | some q =>
              rw [hq] at h
              simp only [Option.map_some', Option.some.injEq] at h
              have hlt := ih rest2 (by simp at hl; omega) q hq
              rw [← h]
              simp at hlt ⊢
              omega
          · rw [if_neg hd] at h
            simp only [Option.some.injEq] at h
            rw [← h]
            simp
      · rw [if_neg hc] at h
        cases hq : parseQuoted rest with
        | none => rw [hq] at h; simp at h
        | some q =>
          rw [hq] at h
          simp only [Option.map_some', Option.some.injEq] at h
          have hlt := ih rest (by simp at hl; omega) q hq
          rw [← h]
          simp at hlt ⊢
          omega

theorem parseQuoted_len (l : List Char) :
    ∀ p, parseQuoted l = some p → p.2.length < l.length :=
  parseQuoted_len_aux l.length l (le_refl _)

theorem parseField_len (l : List Char) :
    ∀ p, parseField l = some p → p.2.length ≤ l.length := by
  intro p h
  cases l with
  | nil => cases h; simp
  | cons c rest =>
    by_cases hc : c = '"'
    · rw [parseField, if_pos hc] at h
      have := parseQuoted_len rest p h
      simp
      omega
    · rw [parseField, if_neg hc] at h
      cases h
      exact parseUnquoted_len (c :: rest)

/-- Parse one record: fields separated by commas, ended by CRLF or the end
of input (fuelled by the record's field count for termination). -/
def parseRecordF : Nat → List Char → Option (List (List Char) × List Char)
  | 0, _ => none
  | fuel + 1, l =>
    match parseField l with
    | none => none
    | some (f, rest) =>
      match rest with
      | [] => some ([f], [])
      | c :: rest2 =>
        if c = ',' then (parseRecordF fuel rest2).map (fun p => (f :: p.1, p.2))
        else if c = '\r' then
          match rest2 with
          | d :: rest3 => if d = '\n' then some ([f], rest3) else none
          | [] => none
        else none

/-- Parse one record with enough fuel for any input. -/
def parseRecord (l : List Char) : Option (List (List Char) × List Char) :=
  parseRecordF (l.length + 1) l

/-- Parse a whole file: records until the input is exhausted. -/
def parseReportF : Nat → List Char → Option (List (List (List Char)))
  | 0, _ => none
  | _ + 1, [] => some []
  | fuel + 1, c :: t =>
    match parseRecord (c :: t) with
    | none => none
    | some p => (parseReportF fuel p.2).map (fun rs => p.1 :: rs)

/-- Parse a whole file with enough fuel for any input. -/
def parseReport (l : List Char) : Option (List (List (List Char))) :=
  parseReportF (l.length + 1) l

theorem parseUnquoted_encode (f : List Char) (hf : needsQuoting f = false)
    (rest : List Char)
    (hrest : rest = [] ∨ rest.head? = some ',' ∨ rest.head? = some '\r') :
    parseUnquoted (f ++ rest) = (f, rest) := by
  induction f with
  | nil =>
    simp only [List.nil_append]
    rcases hrest with h | h | h
    · subst h; rfl
    · cases rest with
      | nil => simp at h
      | cons c t =>
        simp only [List.head?_cons, Option.some.injEq] at h
        subst h
        simp [parseUnquoted]
    · cases rest with
      | nil => simp at h
      | cons c t =>
        simp only [List.head?_cons, Option.some.injEq] at h
        subst h
        simp [parseUnquoted]
  | cons c f2 ih =>
    have hcf : isCsvSpecial c = false ∧ needsQuoting f2 = false := by
      unfold needsQuoting at hf ⊢
      simpa using hf
    have hcn : ¬ (c = ',' ∨ c = '\r') := by
      have hc := hcf.1
      unfold isCsvSpecial at hc
      simp at hc
      tauto
    simp only [List.cons_append, parseUnquoted, hcn, if_false, List.append_eq]
    rw [ih hcf.2]

theorem parseQuoted_encode (f : List Char) (rest : List Char)
    (hrest : rest.head? ≠ some '"') :
    parseQuoted (escapeQ f ++ '"' :: rest) = some (f, rest) := by
  induction f with
  | nil =>
    simp only [escapeQ, List.nil_append]
    rw [parseQuoted.eq_def]
    simp only [if_true]
    cases rest with
    | nil => rfl
    | cons d t =>
      simp only []
      rw [if_neg (fun hd => hrest (by simp [hd]))]
  | cons c f2 ih =>
    by_cases hc : c = '"'
    · subst hc
      simp only [escapeQ, if_pos rfl, List.cons_append]
      show Option.map (fun p => ('"' :: p.1, p.2)) (parseQuoted (escapeQ f2 ++ '"' :: rest))
          = some ('"' :: f2, rest)
      rw [ih]
      rfl
    · simp only [escapeQ, if_neg hc, List.cons_append]
      rw [parseQuoted.eq_def]
      simp only [List.append_eq]
      rw [if_neg hc, ih]
      rfl

theorem parseField_encode (f : List Char) (rest : List Char)
    (hrest : rest = [] ∨ rest.head? = some ',' ∨ rest.head? = some '\r') :
    parseField (encodeField f ++ rest) = some (f, rest) := by
  have hrq : rest.head? ≠ some '"' := by
    rcases hrest with h | h | h <;> rw [h] <;> simp
  unfold encodeField
  by_cases hq : needsQuoting f = true
  · rw [if_pos hq]
    have hsh : ('"' :: (escapeQ f ++ ['"'])) ++ rest
        = '"' :: (escapeQ f ++ '"' :: rest) := by
      simp
    rw [hsh, parseField.eq_def]
    simp only [if_true]
    exact parseQuoted_encode f rest hrq
  · rw [if_neg hq]
    have hq2 : needsQuoting f = false := by
      revert hq
      cases needsQuoting f <;> simp
    cases f with
    | nil =>
      simp only [List.nil_append]
      rcases hrest with h | h | h
      · subst h; rfl
      · cases rest with
        | nil => simp at h
        | cons c t =>
          simp only [List.head?_cons, Option.some.injEq] at h
          subst h
          rfl
      · cases rest with
        | nil => simp at h
        | cons c t =>
          simp only [List.head?_cons, Option.some.injEq] at h
          subst h
          rfl
    | cons c f2 =>
      have hcs : isCsvSpecial c = false := by
        unfold needsQuoting at hq2
        simp at hq2
        exact hq2.1
      have hcq : c ≠ '"' := by
        unfold isCsvSpecial at hcs
        simp at hcs
        tauto
      rw [List.cons_append, parseField.eq_def]
      simp only []
      rw [if_neg hcq, ← List.cons_append,
        parseUnquoted_encode (c :: f2) hq2 rest hrest]

theorem encodeRow_len (fields : List (List Char)) :
    fields.length ≤ (encodeRow fields).length + 1 := by
  induction fields with
  | nil => simp [encodeRow]
  | cons f t ih =>
    cases t with
    | nil => simp [encodeRow]
    | cons g t2 =>
      simp only [encodeRow, List.length_cons, List.length_append] at ih ⊢
      omega

theorem parseRecordF_encode (fields : List (List Char)) (hne : fields ≠ [])
    (rest : List Char) :
    ∀ fuel, fields.length ≤ fuel →
      parseRecordF fuel (encodeRow fields ++ '\r' :: '\n' :: rest)
        = some (fields, rest) := by
  induction fields with
  | nil => exact absurd rfl hne
  | cons f t ih =>
    intro fuel hfuel
    obtain ⟨k, rfl⟩ : ∃ k, fuel = k + 1 :=
      ⟨fuel - 1, by simp at hfuel; omega⟩
    cases t with
    | nil =>
      simp only [encodeRow]
      rw [parseRecordF]
      rw [parseField_encode f ('\r' :: '\n' :: rest) (Or.inr (Or.inr rfl))]
      rfl
    | cons g t2 =>
      rw [show encodeRow (f :: g :: t2)
          = encodeField f ++ ',' :: encodeRow (g :: t2) from rfl]
      have hsh : (encodeField f ++ ',' :: encodeRow (g :: t2)) ++ '\r' :: '\n' :: rest
          = encodeField f ++ ',' :: (encodeRow (g :: t2) ++ '\r' :: '\n' :: rest) := by
        simp
      rw [hsh, parseRecordF]
      rw [parseField_encode f (',' :: (encodeRow (g :: t2) ++ '\r' :: '\n' :: rest))
        (Or.inr (Or.inl rfl))]
      show (parseRecordF k (encodeRow (g :: t2) ++ '\r' :: '\n' :: rest)).map
          (fun p => (f :: p.1, p.2)) = some (f :: g :: t2, rest)
      rw [ih (by simp) k (by simp at hfuel ⊢; omega)]
      rfl

theorem parseRecord_encode (fields : List (List Char)) (hne : fields ≠ [])
    (rest : List Char) :
    parseRecord (encodeRow fields ++ '\r' :: '\n' :: rest) = some (fields, rest) := by
  apply parseRecordF_encode fields hne rest
  have h := encodeRow_len fields
  simp only [List.length_append, List.length_cons]
  omega

theorem parseReportF_encode (rows : List (List (List Char)))
    (hrows : ∀ r ∈ rows, r ≠ []) :
    ∀ fuel, rows.length < fuel →
      parseReportF fuel (encodeReport rows) = some rows := by
  induction rows with
  | nil =>
    intro fuel hfuel
    obtain ⟨k, rfl⟩ : ∃ k, fuel = k + 1 := ⟨fuel - 1, by omega⟩
    rfl
  | cons r rs ih =>
    intro fuel hfuel
    obtain ⟨k, rfl⟩ : ∃ k, fuel = k + 1 := ⟨fuel - 1, by omega⟩
    have hr : r ≠ [] := hrows r (by simp)
    have hrec := parseRecord_encode r hr (encodeReport rs)
    simp only [encodeReport]
    obtain ⟨c, t, hct⟩ : ∃ c t,
        encodeRow r ++ '\r' :: '\n' :: encodeReport rs = c :: t := by
      cases hER : encodeRow r with
      | nil => exact ⟨'\r', '\n' :: encodeReport rs, by simp⟩
      | cons a b => exact ⟨a, b ++ '\r' :: '\n' :: encodeReport rs, by simp⟩
    rw [hct, parseReportF]
    rw [← hct, hrec]
    simp only []
    rw [ih (fun x hx => hrows x (by simp [hx])) k (by simp at hfuel; omega)]
    rfl

theorem encodeReport_len (rows : List (List (List Char))) :
    rows.length ≤ (encodeReport rows).length := by
  induction rows with
  | nil => simp [encodeReport]
  | cons r rs ih =>
    simp only [encodeReport, List.length_cons, List.length_append]
    omega

theorem parseReport_encode (rows : List (List (List Char)))
    (hrows : ∀ r ∈ rows, r ≠ []) :
    parseReport (encodeReport rows) = some rows := by
  apply parseReportF_encode rows hrows
  have h := encodeReport_len rows
  omega

/-- Write a list of records (fields as strings) as the csv module does. -/
def encodeReportStr (rows : List (List String)) : String :=
  ⟨encodeReport (rows.map (fun r => r.map String.data))⟩

/-- Read the file back into records of field strings. -/
def parseReportStr (s : String) : Option (List (List String)) :=
  (parseReport s.data).map (fun rs => rs.map (fun r => r.map (fun f => (⟨f⟩ : String))))

theorem str_mk_data (s : String) : (⟨s.data⟩ : String) = s := rfl

theorem map_mk_data_list (r : List String) :
    (r.map String.data).map (fun f => (⟨f⟩ : String)) = r := by
  rw [List.map_map]
  have h : ((fun f => (⟨f⟩ : String)) ∘ String.data) = fun s => s := by
    funext s
    rfl
  rw [h, List.map_id']

theorem map_rows_mk_data (rows : List (List String)) :
    (rows.map (fun r => r.map String.data)).map
      (fun r => r.map (fun f => (⟨f⟩ : String))) = rows := by
  rw [List.map_map]
  have h : ((fun r : List (List Char) => r.map (fun f => (⟨f⟩ : String)))
      ∘ (fun r : List String => r.map String.data)) = fun r => r := by
    funext r
    exact map_mk_data_list r
  rw [h, List.map_id']

theorem parseReportStr_encode (rows : List (List String))
    (hrows : ∀ r ∈ rows, r ≠ []) :
    parseReportStr (encodeReportStr rows) = some rows := by
  unfold parseReportStr encodeReportStr
  rw [show (⟨encodeReport (rows.map (fun r => r.map String.data))⟩ : String).data
      = encodeReport (rows.map (fun r => r.map String.data)) from rfl]
  rw [parseReport_encode _ ?hne]
  case hne =>
    intro r hr
    rcases List.mem_map.mp hr with ⟨r0, hr0, hr0e⟩
    have := hrows r0 hr0
    rw [← hr0e]
    simpa using this
  simp only [Option.map_some', Option.some.injEq]
  exact map_rows_mk_data rows

/-! ## Report rows as written to and read from the CSV file -/

/-- A cost cell as written to the file: a finite decimal (the form str gives
a Python float) or the literal sentinel text. -/
inductive DecCell where
  | num (m : Int) (e : Nat)
  | na
  deriving DecidableEq

/-- One data row of the report file: Subscription ID, Subscription Name, and
the three period cost cells in period order. -/
structure DecRow where
  id : String
  name : String
  cells : List DecCell
  deriving DecidableEq

/-- The text written for one cell: str(cost) or the sentinel. -/
def decCellStr : DecCell → String
  | .na => "N/A"
  | .num m e => ⟨renderDecChars m e⟩

/-- Interpret a field read back from the file as a cell. -/
def parseCellStr (s : String) : Option DecCell :=
  if s = "N/A" then some DecCell.na
  else (parseDecChars s.data).map (fun p => DecCell.num p.1 p.2)

theorem parseCellStr_decCellStr (c : DecCell) : parseCellStr (decCellStr c) = some c := by
  cases c with
  | na => rfl
  | num m e =>
    have hrt := parseDec_renderDec m e
    unfold parseCellStr decCellStr
    by_cases hne : (⟨renderDecChars m e⟩ : String) = "N/A"
    · exfalso
      have hdata : renderDecChars m e = "N/A".data := congrArg String.data hne
      rw [hdata] at hrt
      rw [show parseDecChars ("N/A".data) = none from by decide] at hrt
      exact Option.noConfusion hrt
    · rw [if_neg hne]
      rw [show ((⟨renderDecChars m e⟩ : String).data) = renderDecChars m e from rfl, hrt]
      rfl

/-- Header row of the report file: the two fixed columns then the period
names, exactly the fieldnames the script passes to csv.DictWriter. -/
def headerFields (months : List Period) : List String :=
  "Subscription ID" :: "Subscription Name" :: months.map Period.name

/-- The fields written for one data row, in fieldnames order. -/
def rowToFields (r : DecRow) : List String :=
  r.id :: r.name :: r.cells.map decCellStr

/-- The full text of the report file for the given periods and rows: header
row then one record per row, as csv.DictWriter emits them. -/
def reportFileContent (months : List Period) (rows : List DecRow) : String :=
  encodeReportStr (headerFields months :: rows.map rowToFields)

/-- Re-interpret one read record as a report row. -/
def recordToRow : List String → Option DecRow
  | id :: nm :: cells =>
    (cells.mapM parseCellStr).map (fun cs => { id := id, name := nm, cells := cs })
  | _ => none

/-- Read the report file back: parse the CSV, drop the header record, and
re-interpret every remaining record. -/
def readReportFile (s : String) : Option (List DecRow) :=
  match parseReportStr s with
  | some (_ :: recs) => recs.mapM recordToRow
  | _ => none

theorem recordToRow_rowToFields (r : DecRow) : recordToRow (rowToFields r) = some r := by
  have hcells : ∀ cs : List DecCell, (cs.map decCellStr).mapM parseCellStr = some cs := by
    intro cs
    induction cs with
    | nil => rfl
    | cons c t ih =>
      rw [List.map_cons, List.mapM_cons, parseCellStr_decCellStr, ih]
      rfl
  show ((r.cells.map decCellStr).mapM parseCellStr).map
      (fun cs => { id := r.id, name := r.name, cells := cs : DecRow }) = some r
  rw [hcells]
  rfl

/-- C9: writing any sequence of report rows to the delimited report file and
re-reading that file yields exactly the same rows — the same subscription
identifiers, the same display names, and the same cost values (finite
decimals recovered exactly, the sentinel text exactly), in the same order. -/
theorem report_file_roundtrip (months : List Period) (rows : List DecRow) :
    readReportFile (reportFileContent months rows) = some rows := by
  unfold readReportFile reportFileContent
  rw [parseReportStr_encode _ ?hne]
  case hne =>
    intro r hr
    rcases List.mem_cons.mp hr with h | h
    · rw [h]
      simp [headerFields]
    · rcases List.mem_map.mp h with ⟨r0, _, hr0e⟩
      rw [← hr0e]
      simp [rowToFields]
  show (rows.map rowToFields).mapM recordToRow = some rows
  induction rows with
  | nil => rfl
  | cons r rs ih =>
    rw [List.map_cons, List.mapM_cons, recordToRow_rowToFields, ih]
    rfl

end CostReport
